import Mathlib

/-!
Verification development for the Nova Bank demo application
(AI-tool-orchestration and transactional-ledger subsystem).

Shallow embedding of the account-operations service
(`transferMoney`, `makeAccountPayment`, `requestPaymentExtension` in the
App component), of the insights cache (`loadOrGenerateInsights` together
with `getComprehensiveInsights` from the gemini service), and of the
chat-turn orchestrator (`handleSend` in the chat modal).

Modelling conventions:
* JS numbers carrying money are embedded as rationals (`ℚ`).
* Timestamps and due dates are embedded as `Int`, counted in days; the
  source shifts due dates with day-of-month arithmetic (which JS `Date`
  normalises), so a 14-day shift is `+ 14` here.
* The Firestore document store is embedded as `BankStore`: a list of user
  documents plus the top-level `transactions` collection.  A document id
  is the `uid` field.  `db.runTransaction` is embedded as a function of
  the store at commit time; writes by other clients that commit between
  the pre-transaction reads and the transaction itself are modelled by an
  explicit `interim : BankStore → BankStore` parameter (the sequential,
  interference-free run instantiates it with `id`).
* Calls to external services (the WebAuthn challenge, the Gemini model)
  are embedded as oracle parameters (`gate`, `aiCall`); the embedding
  records whether/when they are invoked.
-/

/-- Direction of a ledger entry (`'credit' | 'debit'` in the source). -/
inductive TxType where
  | credit
  | debit
deriving DecidableEq, Repr

/-- A document of the top-level `transactions` collection (also the shape of
the entries embedded in a card's `transactions` array). -/
structure Transaction where
  uid : String
  type : TxType
  amount : ℚ
  description : String
  timestamp : Int
  partyName : String
  category : String
deriving DecidableEq, Repr

/-- A card document (`users/{id}/cards/{cardNumber}`).  Presentation-only
fields (cvv, expiry, network art, …) are omitted; the fields below are the
ones the embedded operations read or write. -/
structure Card where
  cardNumber : String
  creditLimit : ℚ
  creditBalance : ℚ
  statementBalance : ℚ
  minimumPayment : ℚ
  paymentDueDate : Int
  transactions : List Transaction
deriving DecidableEq, Repr

/-- Loan status: `'Active' | 'Paid Off'` in the source. -/
inductive LoanStatus where
  | active
  | paidOff
deriving DecidableEq, Repr

/-- A loan document (`users/{id}/loans/{id}`). -/
structure Loan where
  id : String
  uid : String
  loanAmount : ℚ
  monthlyPayment : ℚ
  remainingBalance : ℚ
  status : LoanStatus
  paymentDueDate : Int
deriving DecidableEq, Repr

/-- The client-side current user object (`currentUser` React state): the
user document enriched with the cards and loans subcollections. -/
structure User where
  uid : String
  name : String
  username : String
  email : String
  phone : String
  balance : ℚ
  savingsAccountNumber : String
  cards : List Card
  loans : List Loan
deriving DecidableEq, Repr

/-- A document of the `users` collection as stored (no subcollections). -/
structure StoredUser where
  uid : String
  name : String
  username : String
  email : String
  phone : String
  balance : ℚ
  savingsAccountNumber : String
deriving DecidableEq, Repr

/-- The Firestore slice the embedded operations touch: the `users`
collection and the top-level `transactions` collection. -/
structure BankStore where
  users : List StoredUser
  transactions : List Transaction
deriving DecidableEq, Repr

/-- `db.collection("users").doc(uid).get()`: the document with id `uid`. -/
def getUser (store : BankStore) (uid : String) : Option StoredUser :=
  store.users.find? (fun u => u.uid == uid)

/-- A write of the `balance` field of the user document with id `uid`
(`transaction.update(ref, \x7b balance: b \x7d)`). -/
def updateBalance (store : BankStore) (uid : String) (b : ℚ) : BankStore :=
  { store with
    users := store.users.map (fun u => if u.uid == uid then { u with balance := b } else u) }

/-- Recipient resolution in `transferMoney`: the five equality queries
`q1 name, q2 savingsAccountNumber, q3 email, q4 phone, q5 username
(lower-cased identifier)` are awaited together and
`results.flatMap(snap => snap.docs)[0]` takes the first document of their
concatenation, so the query order is the priority order. -/
def resolveRecipient (store : BankStore) (identifier : String) : Option StoredUser :=
  (store.users.filter (fun u => u.name == identifier)
    ++ store.users.filter (fun u => u.savingsAccountNumber == identifier)
    ++ store.users.filter (fun u => u.email == identifier)
    ++ store.users.filter (fun u => u.phone == identifier)
    ++ store.users.filter (fun u => u.username == identifier.toLower)).head?

/-- The resolution order claimed by the specification (account number
first, then email, then phone, then display name, then username); written
from the spec's words, for comparison with `resolveRecipient`. -/
def resolveRecipientClaimOrder (store : BankStore) (identifier : String) : Option StoredUser :=
  (store.users.filter (fun u => u.savingsAccountNumber == identifier)
    ++ store.users.filter (fun u => u.email == identifier)
    ++ store.users.filter (fun u => u.phone == identifier)
    ++ store.users.filter (fun u => u.name == identifier)
    ++ store.users.filter (fun u => u.username == identifier.toLower)).head?

/-- First-match-wins presentation of the code's actual resolution order
(display name, then account number, then email, then phone, then
lower-cased username). -/
def resolveOrdered (store : BankStore) (identifier : String) : Option StoredUser :=
  match store.users.find? (fun u => u.name == identifier) with
  | some r => some r
  | none =>
    match store.users.find? (fun u => u.savingsAccountNumber == identifier) with
    | some r => some r
    | none =>
      match store.users.find? (fun u => u.email == identifier) with
      | some r => some r
      | none =>
        match store.users.find? (fun u => u.phone == identifier) with
        | some r => some r
        | none => store.users.find? (fun u => u.username == identifier.toLower)

/-- The `db.runTransaction` body of `transferMoney`: re-reads the sender
document (`transaction.get(senderRef)`), throws `"Insufficient funds."`
if it is missing or its live balance is below `amount`, then writes
`sender.balance := live − amount` and — verbatim from the source —
`recipient.balance := recipient.balance + amount` where `recipient` is the
closure-captured object from recipient resolution, i.e. the
pre-transaction cached balance `recipCachedBalance`, not a re-read. -/
def transferTxn (senderUid recipUid : String) (recipCachedBalance amount : ℚ)
    (store : BankStore) : Except String BankStore :=
  match getUser store senderUid with
  | none => .error "Insufficient funds."
  | some senderLive =>
    if senderLive.balance < amount then .error "Insufficient funds."
    else
      .ok (updateBalance (updateBalance store senderUid (senderLive.balance - amount))
        recipUid (recipCachedBalance + amount))

/-- The `users` document underlying a client-cached user object. -/
def User.toStored (u : User) : StoredUser :=
  { uid := u.uid, name := u.name, username := u.username, email := u.email
    phone := u.phone, balance := u.balance, savingsAccountNumber := u.savingsAccountNumber }

/-- The debit ledger entry appended for the sender after a transfer. -/
def mkDebitTx (sender recip : StoredUser) (amount : ℚ) (now : Int) : Transaction :=
  { uid := sender.uid, type := .debit, amount := amount
    description := "Payment to " ++ recip.name, timestamp := now
    partyName := recip.name, category := "Transfers" }

/-- The credit ledger entry appended for the recipient after a transfer. -/
def mkCreditTx (sender recip : StoredUser) (amount : ℚ) (now : Int) : Transaction :=
  { uid := recip.uid, type := .credit, amount := amount
    description := "Payment from " ++ sender.name, timestamp := now
    partyName := sender.name, category := "Transfers" }

/-- Successful outcome of `transferMoney`: the store as left by the
operation (balance writes plus the two appended ledger entries) and the
confirmation message. -/
structure TransferSuccess where
  finalStore : BankStore
  message : String
deriving DecidableEq, Repr

/-- `transferMoney(recipientIdentifier, amount)` of the App component.
`currentUser` is the client-cached user object (the not-logged-in guard
cannot fire here because a `User` is supplied); `store` is the store at
the time of the pre-transaction reads; `interim` is the interference
committed by other clients before `db.runTransaction` runs (`id` for a
sequential run); `now` is the shared timestamp taken after the
transaction for the two ledger appends.  The confirmation message keeps
the source's shape with the currency formatting elided. -/
def transferMoney (currentUser : User) (store : BankStore) (interim : BankStore → BankStore)
    (now : Int) (recipientIdentifier : String) (amount : ℚ) : Except String TransferSuccess :=
  if amount ≤ 0 then .error "Error: Payment amount must be positive."
  else if currentUser.balance < amount then .error "Error: Insufficient funds."
  else
    match resolveRecipient store recipientIdentifier with
    | none => .error ("Error: Contact or account " ++ recipientIdentifier ++ " not found.")
    | some recip =>
      if recip.uid == currentUser.uid then .error "Error: Cannot send money to yourself."
      else
        match transferTxn currentUser.uid recip.uid recip.balance amount (interim store) with
        | .error e => .error e
        | .ok store2 =>
          .ok { finalStore :=
                  { store2 with
                    transactions := store2.transactions ++
                      [mkDebitTx currentUser.toStored recip amount now,
                       mkCreditTx currentUser.toStored recip amount now] }
                message := "Success! You sent a payment to " ++ recip.name ++ "." }

/-- Account kind argument of the payment/extension tools
(`'card' | 'loan'`). -/
inductive AccountType where
  | card
  | loan
deriving DecidableEq, Repr

/-- Payment-amount selector of `makeAccountPayment`
(`'minimum' | 'statement' | 'full' | 'custom'`). -/
inductive PaymentType where
  | minimum
  | statement
  | full
  | custom
deriving DecidableEq, Repr

/-- The card writes issued by a successful card payment:
`creditBalance: Math.max(0, creditBalance − amount)` and
`statementBalance: Math.max(0, statementBalance − amount)`. -/
structure CardPayUpdate where
  cardNumber : String
  newCreditBalance : ℚ
  newStatementBalance : ℚ
deriving DecidableEq, Repr

/-- The loan writes issued by a successful loan payment:
`remainingBalance: remainingBalance − amount`, plus
`status: 'Paid Off'` when the new remaining balance is ≤ 0. -/
structure LoanPayUpdate where
  loanId : String
  newRemainingBalance : ℚ
  paidOff : Bool
deriving DecidableEq, Repr

/-- Which account document a payment updated, and with what. -/
inductive AccountUpdate where
  | card (u : CardPayUpdate)
  | loan (u : LoanPayUpdate)
deriving DecidableEq, Repr

/-- Everything a successful `makeAccountPayment` transaction writes: the
new cash balance of the user document and the card/loan update, all
issued inside the single `db.runTransaction` callback. -/
structure PaymentEffects where
  newUserBalance : ℚ
  accountUpdate : AccountUpdate
  message : String
deriving DecidableEq, Repr

/-- `makeAccountPayment(accountId, accountType, paymentType, customAmount?)`
of the App component.  The whole body is one `db.runTransaction` callback:
`liveBalance` is the user balance re-read inside the transaction
(`t.get(userRef)`), while the card/loan is looked up in the client-cached
`currentUser` (cards by last-4 digits of the card number, loans by full
id).  `customAmount || 0` is embedded as `Option.getD 0`.  Thrown errors
become `.error` with the source's message text. -/
def makeAccountPayment (currentUser : User) (liveBalance : ℚ) (accountId : String)
    (accountType : AccountType) (paymentType : PaymentType) (customAmount : Option ℚ) :
    Except String PaymentEffects :=
  match accountType with
  | .card =>
    match currentUser.cards.find? (fun c => c.cardNumber.takeRight 4 == accountId) with
    | none => .error ("Card ending in " ++ accountId ++ " not found.")
    | some card =>
      let paymentAmount : ℚ :=
        match paymentType with
        | .minimum => card.minimumPayment
        | .statement => card.statementBalance
        | .full => card.creditBalance
        | .custom => customAmount.getD 0
      if paymentAmount ≤ 0 then .error "A valid payment amount is required."
      else if liveBalance < paymentAmount then .error "Insufficient funds."
      else
        .ok { newUserBalance := liveBalance - paymentAmount
              accountUpdate := .card
                { cardNumber := card.cardNumber
                  newCreditBalance := max 0 (card.creditBalance - paymentAmount)
                  newStatementBalance := max 0 (card.statementBalance - paymentAmount) }
              message := "Successfully paid towards your card ending in " ++ accountId ++ "." }
  | .loan =>
    match currentUser.loans.find? (fun l => l.id == accountId) with
    | none => .error ("Loan with ID " ++ accountId ++ " not found.")
    | some loan =>
      let paymentAmount0 : ℚ :=
        match paymentType with
        | .minimum => loan.monthlyPayment
        | .full => loan.remainingBalance
        | .custom => customAmount.getD 0
        | .statement => loan.monthlyPayment
      if paymentAmount0 ≤ 0 then .error "A valid payment amount is required."
      else
        let paymentAmount : ℚ :=
          if loan.remainingBalance < paymentAmount0 then loan.remainingBalance
          else paymentAmount0
        if liveBalance < paymentAmount then .error "Insufficient funds."
        else
          let newRemainingBalance : ℚ := loan.remainingBalance - paymentAmount
          .ok { newUserBalance := liveBalance - paymentAmount
                accountUpdate := .loan
                  { loanId := loan.id
                    newRemainingBalance := newRemainingBalance
                    paidOff := newRemainingBalance ≤ 0 }
                message :=
                  if newRemainingBalance ≤ 0 then
                    "Successfully paid off your loan (" ++ accountId ++ "). Congratulations!"
                  else
                    "Successfully paid towards your loan (" ++ accountId ++ ")." }

/-- Successful outcome of `requestPaymentExtension`: the updated document
and the due date written to it. -/
structure ExtensionResult where
  docId : String
  newDueDate : Int
deriving DecidableEq, Repr

/-- `requestPaymentExtension(accountId, type)` of the App component.
`rejected` is the outcome of the simulated 10% underwriting rejection
(`Math.random() < 0.1`).  `now` models the wall clock at the moment of
the call; the source never consults the clock for the new date — it
computes `newDueDate` purely as the stored `paymentDueDate` plus 14 days
(`setDate(getDate() + 14)`, which JS `Date` normalises across month
boundaries), which is why `now` is unused on every path. -/
def requestPaymentExtension (currentUser : User) (now : Int) (rejected : Bool)
    (accountId : String) (ty : AccountType) : Except String ExtensionResult :=
  if rejected then
    .error "We are sorry, but we were unable to process a payment extension for this account."
  else
    match ty with
    | .card =>
      match currentUser.cards.find? (fun c => c.cardNumber.takeRight 4 == accountId) with
      | none => .error ("Error: Card ending in " ++ accountId ++ " not found.")
      | some card => .ok { docId := card.cardNumber, newDueDate := card.paymentDueDate + 14 }
    | .loan =>
      match currentUser.loans.find? (fun l => l.id == accountId) with
      | none => .error ("Error: Loan with ID " ++ accountId ++ " not found.")
      | some loan => .ok { docId := loan.id, newDueDate := loan.paymentDueDate + 14 }

/-- `getComprehensiveInsights(transactions)` of the gemini service.
Before anything reaches the model it counts the debit transactions and
returns `null` when fewer than 3; only otherwise does it issue the batch
`generateContent` call, embedded as the oracle `aiCall` (which returns
`none` when the provider call or JSON parse fails).  The second component
records whether the batch AI call was issued. -/
def getComprehensiveInsights {ι : Type} (aiCall : List Transaction → Option ι)
    (transactions : List Transaction) : Option ι × Bool :=
  if (transactions.filter (fun tx => tx.type == TxType.debit)).length < 3 then (none, false)
  else (aiCall transactions, true)

/-- The persisted insights document (`users/{id}/insights/latest`), with
the analysis payload abstracted as `ι`. -/
structure CachedInsight (ι : Type) where
  data : ι
  lastUpdated : Int
deriving DecidableEq, Repr

/-- `loadOrGenerateInsights()` of the App component.  Arguments mirror the
state it closes over: the `isInsightsLoading` in-progress flag, the
client-cached `currentUser` and savings `transactions`, the persisted
cache document, and the current day `now` (the source filters to the
trailing 60 days before handing the list to `getComprehensiveInsights`).
Returns `(returned value, cache afterwards, whether the batch AI call was
issued)`. -/
def loadOrGenerateInsights {ι : Type} (aiCall : List Transaction → Option ι)
    (isInsightsLoading : Bool) (currentUser : User) (transactions : List Transaction)
    (cache : Option (CachedInsight ι)) (now : Int) :
    Option (CachedInsight ι) × Option (CachedInsight ι) × Bool :=
  if isInsightsLoading then (none, cache, false)
  else
    match cache with
    | some cached => (some cached, cache, false)
    | none =>
      let allUserTransactions :=
        transactions.filter (fun tx => tx.uid == currentUser.uid)
          ++ currentUser.cards.flatMap (fun c => c.transactions)
      let recentTransactions := allUserTransactions.filter (fun tx => now - 60 ≤ tx.timestamp)
      match getComprehensiveInsights aiCall recentTransactions with
      | (some newInsightsData, called) =>
        let newCachedInsights : CachedInsight ι := { data := newInsightsData, lastUpdated := now }
        (some newCachedInsights, some newCachedInsights, called)
      | (none, called) => (none, none, called)

/-- A tool-call request as delivered in a stream chunk (name plus an
opaque argument payload). -/
structure ToolCall where
  name : String
  args : String
deriving DecidableEq, Repr

/-- One chunk of the streaming chat response: optional incremental text
and an optional batch of tool-call requests (`chunk.functionCalls`). -/
structure Chunk where
  functionCalls : List ToolCall
  text : Option String
deriving DecidableEq, Repr

/-- One entry of `functionResponseParts`: the payload handed back to the
model for one processed tool call. -/
structure FunctionResponse where
  name : String
  success : Bool
  message : String
deriving DecidableEq, Repr

/-- Instrumentation of the observable steps of one turn of `handleSend`.
`callIdx` is the position of the tool call in the collected list. -/
inductive Event where
  | chunkConsumed (chunkIdx : Nat)
  | gateChecked (callIdx : Nat) (name : String) (ok : Bool)
  | callCancelled (callIdx : Nat) (name : String)
  | opInvoked (callIdx : Nat) (name : String)
deriving DecidableEq, Repr

/-- The sensitive set guarded by the re-authentication gate
(`sensitiveActions` in `handleSend`). -/
def sensitiveActions : List String :=
  ["initiatePayment", "makeAccountPayment", "applyForCreditCard", "applyForLoan",
   "requestPaymentExtension"]

/-- The tool result synthesized when the passkey gate denies a sensitive
call (`\x7b success: false, message: 'User cancelled the action with their
passkey.' \x7d` pushed onto `functionResponseParts`). -/
def cancelledResponse (name : String) : FunctionResponse :=
  { name := name, success := false, message := "User cancelled the action with their passkey." }

/-- Outcome of the tool-call-processing phase of a turn: the app state
after all dispatches, the `functionResponseParts` list, and the
instrumented event trace. -/
structure ProcOut (σ : Type) where
  state : σ
  responses : List FunctionResponse
  events : List Event
deriving DecidableEq, Repr

/-- The `for (const call of functionCalls)` loop of `handleSend`.  Each
call is processed to completion before the next starts (the loop awaits
every gate challenge and every dispatch).  `handleCall` is the
`handleFunctionCall` dispatcher, abstracted over the app state `σ` it
mutates and universally quantified in the theorems (so "never invoked"
holds for every possible dispatcher); `gate j` is the outcome of the
passkey challenge if it is invoked for the call at position `j`; `j` is
the position of the next call. -/
def processCalls {σ : Type} (handleCall : σ → ToolCall → σ × Bool × String)
    (gate : Nat → Bool) (j : Nat) (s : σ) : List ToolCall → ProcOut σ
  | [] => { state := s, responses := [], events := [] }
  | call :: rest =>
    if call.name ∈ sensitiveActions then
      if gate j then
        let r := handleCall s call
        let next := processCalls handleCall gate (j + 1) r.1 rest
        { state := next.state
          responses := { name := call.name, success := r.2.1, message := r.2.2 } :: next.responses
          events := Event.gateChecked j call.name true :: Event.opInvoked j call.name
            :: next.events }
      else
        let next := processCalls handleCall gate (j + 1) s rest
        { state := next.state
          responses := cancelledResponse call.name :: next.responses
          events := Event.gateChecked j call.name false :: Event.callCancelled j call.name
            :: next.events }
    else
      let r := handleCall s call
      let next := processCalls handleCall gate (j + 1) r.1 rest
      { state := next.state
        responses := { name := call.name, success := r.2.1, message := r.2.2 } :: next.responses
        events := Event.opInvoked j call.name :: next.events }

/-- The collection phase of `streamAndHandle`: while the stream is open,
every chunk's `functionCalls` are pushed onto `collectedFunctionCalls`
(in chunk order) and nothing is executed. -/
def collectedCalls (chunks : List Chunk) : List ToolCall :=
  chunks.flatMap (fun c => c.functionCalls)

/-- The text accumulation of `streamAndHandle`: chunk texts are appended
to one growing assistant message. -/
def accumulatedText (chunks : List Chunk) : String :=
  chunks.foldl (fun acc c => acc ++ c.text.getD "") ""

/-- The stream-phase part of the event trace: one event per consumed
chunk, in stream order. -/
def streamTrace (chunks : List Chunk) : List Event :=
  (List.range chunks.length).map Event.chunkConsumed

/-- One turn of `handleSend` from the first `streamAndHandle` call on:
the stream is consumed to the end (collecting calls, executing none),
then — only if at least one call was collected — the collected calls are
processed strictly in order.  (The second `streamAndHandle` pass that
streams the final answer adds further `chunkConsumed` events only; it
requests no execution here and is not modelled.)  Returns the final app
state, `functionResponseParts`, and the event trace of the turn. -/
def handleSendModel {σ : Type} (handleCall : σ → ToolCall → σ × Bool × String)
    (gate : Nat → Bool) (s : σ) (chunks : List Chunk) : ProcOut σ :=
  let functionCalls := collectedCalls chunks
  if functionCalls.length > 0 then
    let next := processCalls handleCall gate 0 s functionCalls
    { state := next.state, responses := next.responses
      events := streamTrace chunks ++ next.events }
  else { state := s, responses := [], events := streamTrace chunks }

/-- The names of the calls that are actually dispatched (non-sensitive
calls, plus sensitive calls whose gate challenge succeeds), in collected
order — the reference order for the execution trace. -/
def executedNames (gate : Nat → Bool) (j : Nat) : List ToolCall → List String
  | [] => []
  | call :: rest =>
    if call.name ∈ sensitiveActions then
      if gate j then call.name :: executedNames gate (j + 1) rest
      else executedNames gate (j + 1) rest
    else call.name :: executedNames gate (j + 1) rest

/-- The names of the `opInvoked` events of a trace, in trace order. -/
def invokedNames : List Event → List String
  | [] => []
  | Event.opInvoked _ name :: rest => name :: invokedNames rest
  | Event.chunkConsumed _ :: rest => invokedNames rest
  | Event.gateChecked _ _ _ :: rest => invokedNames rest
  | Event.callCancelled _ _ :: rest => invokedNames rest

/-- Whether an event is a stream-phase event. -/
def Event.isChunkConsumed : Event → Bool
  | Event.chunkConsumed _ => true
  | _ => false


lemma processCalls_responses_names {σ : Type} (h : σ → ToolCall → σ × Bool × String)
    (g : Nat → Bool) :
    ∀ (calls : List ToolCall) (j : Nat) (s : σ),
      (processCalls h g j s calls).responses.map FunctionResponse.name = calls.map ToolCall.name
  | [], _, _ => rfl
  | c :: rest, j, s => by
    unfold processCalls
    by_cases hc : c.name ∈ sensitiveActions
    · by_cases hg : g j
      · simp [hc, hg, processCalls_responses_names h g rest]
      · simp [hc, hg, cancelledResponse, processCalls_responses_names h g rest]
    · simp [hc, processCalls_responses_names h g rest]

lemma processCalls_responses_length {σ : Type} (h : σ → ToolCall → σ × Bool × String)
    (g : Nat → Bool) (calls : List ToolCall) (j : Nat) (s : σ) :
    (processCalls h g j s calls).responses.length = calls.length := by
  have := congrArg List.length (processCalls_responses_names h g calls j s)
  simpa using this

lemma processCalls_no_chunkConsumed {σ : Type} (h : σ → ToolCall → σ × Bool × String)
    (g : Nat → Bool) :
    ∀ (calls : List ToolCall) (j : Nat) (s : σ),
      ∀ e ∈ (processCalls h g j s calls).events, e.isChunkConsumed = false
  | [], _, _ => by simp [processCalls]
  | c :: rest, j, s => by
    unfold processCalls
    by_cases hc : c.name ∈ sensitiveActions
    · by_cases hg : g j
      · simpa [hc, hg, Event.isChunkConsumed] using
          processCalls_no_chunkConsumed h g rest (j + 1) (h s c).1
      · simpa [hc, hg, Event.isChunkConsumed] using
          processCalls_no_chunkConsumed h g rest (j + 1) s
    · simpa [hc, Event.isChunkConsumed] using
        processCalls_no_chunkConsumed h g rest (j + 1) (h s c).1

lemma processCalls_opInvoked_ge {σ : Type} (h : σ → ToolCall → σ × Bool × String)
    (g : Nat → Bool) :
    ∀ (calls : List ToolCall) (j : Nat) (s : σ) (i : Nat) (n : String),
      Event.opInvoked i n ∈ (processCalls h g j s calls).events → j ≤ i
  | [], j, s, i, n => by simp [processCalls]
  | c :: rest, j, s, i, n => by
    unfold processCalls
    by_cases hc : c.name ∈ sensitiveActions
    · by_cases hg : g j
      · rw [if_pos hc, if_pos hg]
        intro he
        simp only [List.mem_cons] at he
        rcases he with he | he | he
        · simp at he
        · simp only [Event.opInvoked.injEq] at he
          obtain ⟨rfl, -⟩ := he
          exact le_refl _
        · exact Nat.le_of_succ_le (processCalls_opInvoked_ge h g rest (j + 1) _ i n he)
      · rw [if_pos hc, if_neg hg]
        intro he
        simp only [List.mem_cons] at he
        rcases he with he | he | he
        · simp at he
        · simp at he
        · exact Nat.le_of_succ_le (processCalls_opInvoked_ge h g rest (j + 1) _ i n he)
    · rw [if_neg hc]
      intro he
      simp only [List.mem_cons] at he
      rcases he with he | he
      · simp only [Event.opInvoked.injEq] at he
        obtain ⟨rfl, -⟩ := he
        exact le_refl _
      · exact Nat.le_of_succ_le (processCalls_opInvoked_ge h g rest (j + 1) _ i n he)

lemma processCalls_invokedNames {σ : Type} (h : σ → ToolCall → σ × Bool × String)
    (g : Nat → Bool) :
    ∀ (calls : List ToolCall) (j : Nat) (s : σ),
      invokedNames (processCalls h g j s calls).events = executedNames g j calls
  | [], _, _ => rfl
  | c :: rest, j, s => by
    unfold processCalls executedNames
    by_cases hc : c.name ∈ sensitiveActions
    · by_cases hg : g j
      · rw [if_pos hc, if_pos hg, if_pos hc, if_pos hg]
        simp [invokedNames, processCalls_invokedNames h g rest]
      · rw [if_pos hc, if_neg hg, if_pos hc, if_neg hg]
        simp [invokedNames, processCalls_invokedNames h g rest]
    · rw [if_neg hc, if_neg hc]
      simp [invokedNames, processCalls_invokedNames h g rest]

lemma processCalls_denied {σ : Type} (h : σ → ToolCall → σ × Bool × String)
    (g : Nat → Bool) :
    ∀ (calls : List ToolCall) (i j : Nat) (s : σ) (c : ToolCall),
      calls[i]? = some c → c.name ∈ sensitiveActions → g (j + i) = false →
      (processCalls h g j s calls).responses[i]? = some (cancelledResponse c.name) ∧
      ∀ n, Event.opInvoked (j + i) n ∉ (processCalls h g j s calls).events
  | [], i, j, s, c => by simp
  | c' :: rest, 0, j, s, c => by
    intro hget hsens hgate
    simp only [List.getElem?_cons_zero, Option.some.injEq] at hget
    subst hget
    rw [Nat.add_zero] at hgate ⊢
    unfold processCalls
    rw [if_pos hsens, if_neg (by simp [hgate])]
    refine ⟨by simp, ?_⟩
    intro n hn
    simp only [List.mem_cons] at hn
    rcases hn with hn | hn | hn
    · simp at hn
    · simp at hn
    · have := processCalls_opInvoked_ge h g rest (j + 1) s j n hn
      omega
  | c' :: rest, i + 1, j, s, c => by
    intro hget hsens hgate
    simp only [List.getElem?_cons_succ] at hget
    have hidx : j + (i + 1) = j + 1 + i := by omega
    rw [hidx] at hgate ⊢
    have hrec := fun s' => processCalls_denied h g rest i (j + 1) s' c hget hsens hgate
    unfold processCalls
    by_cases hc : c'.name ∈ sensitiveActions
    · by_cases hg : g j
      · rw [if_pos hc, if_pos hg]
        refine ⟨by simpa using (hrec (h s c').1).1, ?_⟩
        intro n hn
        simp only [List.mem_cons] at hn
        rcases hn with hn | hn | hn
        · simp at hn
        · simp only [Event.opInvoked.injEq] at hn
          omega
        · exact (hrec (h s c').1).2 n hn
      · rw [if_pos hc, if_neg hg]
        refine ⟨by simpa using (hrec s).1, ?_⟩
        intro n hn
        simp only [List.mem_cons] at hn
        rcases hn with hn | hn | hn
        · simp at hn
        · simp at hn
        · exact (hrec s).2 n hn
    · rw [if_neg hc]
      refine ⟨by simpa using (hrec (h s c').1).1, ?_⟩
      intro n hn
      simp only [List.mem_cons] at hn
      rcases hn with hn | hn
      · simp only [Event.opInvoked.injEq] at hn
        omega
      · exact (hrec (h s c').1).2 n hn

lemma invokedNames_append :
    ∀ (a b : List Event), invokedNames (a ++ b) = invokedNames a ++ invokedNames b
  | [], _ => rfl
  | Event.opInvoked _ _ :: rest, b => by simp [invokedNames, invokedNames_append rest b]
  | Event.chunkConsumed _ :: rest, b => by simp [invokedNames, invokedNames_append rest b]
  | Event.gateChecked _ _ _ :: rest, b => by simp [invokedNames, invokedNames_append rest b]
  | Event.callCancelled _ _ :: rest, b => by simp [invokedNames, invokedNames_append rest b]

lemma invokedNames_map_chunkConsumed :
    ∀ (l : List Nat), invokedNames (l.map Event.chunkConsumed) = []
  | [] => rfl
  | _ :: rest => by simp [invokedNames, invokedNames_map_chunkConsumed rest]

lemma invokedNames_streamTrace (chunks : List Chunk) : invokedNames (streamTrace chunks) = [] :=
  invokedNames_map_chunkConsumed _

lemma streamTrace_all_chunkConsumed (chunks : List Chunk) :
    ∀ e ∈ streamTrace chunks, e.isChunkConsumed = true := by
  intro e he
  simp only [streamTrace, List.mem_map] at he
  obtain ⟨a, -, rfl⟩ := he
  rfl

lemma streamTrace_no_opInvoked (chunks : List Chunk) (i : Nat) (n : String) :
    Event.opInvoked i n ∉ streamTrace chunks := by
  intro he
  have := streamTrace_all_chunkConsumed chunks _ he
  simp [Event.isChunkConsumed] at this

/-- C1: in one turn of `handleSend`, for every collected tool call whose
name is in the sensitive set, if the passkey gate
(`verifyCurrentUserWithPasskey`) answers false for that call, then the
dispatcher (`handleFunctionCall`, hence the account operation) is never
invoked for that call — for every possible dispatcher `handleCall` —, the
synthesized tool result for that position is
`success := false, message := "User cancelled the action with their
passkey."`, and the remaining collected calls are still processed (one
response per collected call). -/
theorem claim_C1_gate_denied_never_executes {σ : Type}
    (handleCall : σ → ToolCall → σ × Bool × String) (gate : Nat → Bool) (s : σ)
    (chunks : List Chunk) (i : Nat) (c : ToolCall)
    (hget : (collectedCalls chunks)[i]? = some c)
    (hsens : c.name ∈ sensitiveActions)
    (hgate : gate i = false) :
    (handleSendModel handleCall gate s chunks).responses[i]? =
      some { name := c.name, success := false
             message := "User cancelled the action with their passkey." } ∧
    (∀ n, Event.opInvoked i n ∉ (handleSendModel handleCall gate s chunks).events) ∧
    (handleSendModel handleCall gate s chunks).responses.length
      = (collectedCalls chunks).length := by
  have hlen : 0 < (collectedCalls chunks).length := by
    by_contra hl
    rw [Nat.not_lt, Nat.le_zero] at hl
    rw [List.getElem?_eq_none (by omega)] at hget
    exact Option.noConfusion hget
  have hdenied := processCalls_denied handleCall gate (collectedCalls chunks) i 0 s c hget hsens
    (by simpa using hgate)
  rw [Nat.zero_add] at hdenied
  unfold handleSendModel
  rw [if_pos (by omega)]
  refine ⟨hdenied.1, ?_, processCalls_responses_length handleCall gate _ 0 s⟩
  intro n hn
  simp only [List.mem_append] at hn
  rcases hn with hn | hn
  · exact streamTrace_no_opInvoked chunks i n hn
  · exact hdenied.2 n hn

/-- Concrete turn for the C1 witness: one stream chunk requesting a
sensitive `initiatePayment` call followed by a non-sensitive
`getAccountBalance` call, with a gate that denies every challenge. -/
def c1Chunks : List Chunk :=
  [{ functionCalls := [{ name := "initiatePayment", args := "a" },
                       { name := "getAccountBalance", args := "b" }]
     text := some "Working on it" }]

/-- Dispatcher instance for the C1 witness. -/
def c1Handle : Nat → ToolCall → Nat × Bool × String :=
  fun s _ => (s + 1, true, "ok")

/-- C1 witness: the theorem applied to the concrete turn `c1Chunks` with
an always-denying gate. -/
theorem claim_C1_witness :
    (collectedCalls c1Chunks)[0]? = some { name := "initiatePayment", args := "a" } ∧
    ("initiatePayment" : String) ∈ sensitiveActions ∧
    ((handleSendModel c1Handle (fun _ => false) 0 c1Chunks).responses[0]? =
      some { name := "initiatePayment", success := false
             message := "User cancelled the action with their passkey." } ∧
     (∀ n, Event.opInvoked 0 n ∉ (handleSendModel c1Handle (fun _ => false) 0 c1Chunks).events) ∧
     (handleSendModel c1Handle (fun _ => false) 0 c1Chunks).responses.length
        = (collectedCalls c1Chunks).length) :=
  ⟨by decide, by decide,
    claim_C1_gate_denied_never_executes c1Handle (fun _ => false) 0 c1Chunks 0
      { name := "initiatePayment", args := "a" } (by decide) (by decide) rfl⟩

/-- C8: within one turn, tool-call requests are only accumulated while
the stream is open — the event trace is the stream trace (chunk
consumptions only, no `opInvoked` event) followed by processing events
(no chunk consumption) — and afterwards the collected calls are processed
strictly one at a time in the order received: exactly one tool result per
collected call, in collected order, and the dispatched operations occur
exactly in the collected order restricted to the gate-passing calls.
The model is the source's single sequential `for (const call of
functionCalls)` loop, which awaits each call to completion; no two
dispatches overlap. -/
theorem claim_C8_collect_then_execute_in_order {σ : Type}
    (handleCall : σ → ToolCall → σ × Bool × String) (gate : Nat → Bool) (s : σ)
    (chunks : List Chunk) :
    collectedCalls chunks = chunks.flatMap (fun ch => ch.functionCalls) ∧
    (handleSendModel handleCall gate s chunks).responses.map FunctionResponse.name
      = (collectedCalls chunks).map ToolCall.name ∧
    invokedNames (handleSendModel handleCall gate s chunks).events
      = executedNames gate 0 (collectedCalls chunks) ∧
    ∃ procEvents,
      (handleSendModel handleCall gate s chunks).events = streamTrace chunks ++ procEvents ∧
      (∀ e ∈ streamTrace chunks, e.isChunkConsumed = true) ∧
      (∀ e ∈ streamTrace chunks, ∀ i n, e ≠ Event.opInvoked i n) ∧
      (∀ e ∈ procEvents, e.isChunkConsumed = false) := by
  refine ⟨rfl, ?_⟩
  unfold handleSendModel
  by_cases hlen : 0 < (collectedCalls chunks).length
  · rw [if_pos hlen]
    refine ⟨processCalls_responses_names handleCall gate _ 0 s, ?_, ?_⟩
    · rw [invokedNames_append, invokedNames_streamTrace,
        processCalls_invokedNames handleCall gate _ 0 s, List.nil_append]
    · refine ⟨(processCalls handleCall gate 0 s (collectedCalls chunks)).events, rfl,
        streamTrace_all_chunkConsumed chunks, ?_,
        processCalls_no_chunkConsumed handleCall gate _ 0 s⟩
      intro e he i n hne
      subst hne
      exact streamTrace_no_opInvoked chunks i n he
  · rw [if_neg hlen]
    have hnil : collectedCalls chunks = [] := by
      rw [Nat.not_lt, Nat.le_zero] at hlen
      exact List.eq_nil_of_length_eq_zero hlen
    refine ⟨by simp [hnil], by simp [hnil, invokedNames_streamTrace, executedNames], ?_⟩
    refine ⟨[], by simp, streamTrace_all_chunkConsumed chunks, ?_, by simp⟩
    intro e he i n hne
    subst hne
    exact streamTrace_no_opInvoked chunks i n he

/-- C3 (amended): recipient resolution matches, in order, display name
first, then account number, then email, then phone, then username (the
identifier is lower-cased only for the username lookup), and the first
match across the five lookups in that order wins. -/
theorem claim_C3_resolution_order_amended (store : BankStore) (identifier : String) :
    resolveRecipient store identifier = resolveOrdered store identifier := by
  unfold resolveRecipient resolveOrdered
  rw [List.head?_append, List.head?_append, List.head?_append, List.head?_append]
  rw [List.filter_head?, List.filter_head?, List.filter_head?, List.filter_head?,
    List.filter_head?]
  cases h1 : store.users.find? (fun u => u.name == identifier) <;> simp [h1, Option.or]
  cases h2 : store.users.find? (fun u => u.savingsAccountNumber == identifier) <;>
    simp [h2, Option.or]
  cases h3 : store.users.find? (fun u => u.email == identifier) <;> simp [h3, Option.or]
  cases h4 : store.users.find? (fun u => u.phone == identifier) <;> simp [h4, Option.or]

/-- C3 counterexample store: user `c3UserA` whose display name is the
digit string "111222" and user `c3UserB` whose savings account number is
"111222". -/
def c3UserA : StoredUser :=
  { uid := "a", name := "111222", username := "alice", email := "alice@example.com"
    phone := "111", balance := 10, savingsAccountNumber := "999" }

/-- Second user of the C3 counterexample store. -/
def c3UserB : StoredUser :=
  { uid := "b", name := "Bob", username := "bob", email := "bob@example.com"
    phone := "222", balance := 20, savingsAccountNumber := "111222" }

/-- The C3 counterexample store. -/
def c3Store : BankStore := { users := [c3UserA, c3UserB], transactions := [] }

/-- C3 counterexample: under the order the claim states (account number
first), identifier "111222" would resolve to `c3UserB` (matched by
account number); the code resolves it to `c3UserA` (matched by display
name), because the display-name query comes first. -/
theorem claim_C3_counterexample :
    resolveRecipientClaimOrder c3Store "111222" = some c3UserB ∧
    resolveRecipient c3Store "111222" = some c3UserA ∧
    c3UserA ≠ c3UserB := by
  refine ⟨by decide, by decide, by decide⟩

/-- C4 sender (client-cached current user). -/
def c4Sender : User :=
  { uid := "s", name := "Sam", username := "sam", email := "sam@example.com"
    phone := "333", balance := 1000, savingsAccountNumber := "555", cards := [], loans := [] }

/-- C4 recipient document as it stands when `transferMoney` resolves the
recipient and caches `recipient.balance = 50`. -/
def c4Recipient : StoredUser :=
  { uid := "r", name := "Bob", username := "bob", email := "bob@example.com"
    phone := "222", balance := 50, savingsAccountNumber := "777" }

/-- C4 store at pre-transaction read time. -/
def c4Store : BankStore := { users := [c4Sender.toStored, c4Recipient], transactions := [] }

/-- C4 interference: another client's committed write sets the
recipient's authoritative balance to 500 before the transfer's
`db.runTransaction` commits. -/
def c4Interim : BankStore → BankStore := fun st => updateBalance st "r" 500

unseal Rat.add Rat.sub in
/-- C4: the recipient write of the transfer transaction uses the
pre-transaction client-cached balance, not the value re-read inside the
transaction.  With the recipient's authoritative balance at 500 when the
transaction runs (cached: 50) and a 200 transfer, the code writes
50 + 200 = 250 — not 500 + 200 = 700 as re-reading inside the
transaction would — silently erasing the concurrent 450 credit. -/
theorem claim_C4_recipient_balance_not_reread :
    ∃ out, transferMoney c4Sender c4Store c4Interim 7 "Bob" 200 = Except.ok out ∧
      getUser (c4Interim c4Store) "r" = some { c4Recipient with balance := 500 } ∧
      getUser out.finalStore "r" = some { c4Recipient with balance := 250 } ∧
      (250 : ℚ) ≠ 500 + 200 := by
  refine ⟨_, rfl, by decide, by decide, by decide⟩

lemma balanceUpdateFun_uid (u : String) (b : ℚ) (x : StoredUser) :
    ((if x.uid == u then { x with balance := b } else x) : StoredUser).uid = x.uid := by
  by_cases h : x.uid == u <;> simp [h]

lemma find?_uid_map_update :
    ∀ (l : List StoredUser) (u t : String) (b : ℚ),
      (l.map (fun x => if x.uid == u then { x with balance := b } else x)).find?
          (fun x => x.uid == t)
        = (l.find? (fun x => x.uid == t)).map
            (fun x => if x.uid == u then { x with balance := b } else x)
  | [], _, _, _ => rfl
  | y :: ys, u, t, b => by
    rw [List.map_cons]
    by_cases hyt : (y.uid == t) = true
    · rw [List.find?_cons_of_pos _ (by rw [balanceUpdateFun_uid]; exact hyt)]
      rw [show List.find? (fun x => x.uid == t) (y :: ys) = some y from
        List.find?_cons_of_pos ys hyt]
      rfl
    · rw [List.find?_cons_of_neg _ (by rw [balanceUpdateFun_uid]; exact hyt)]
      rw [show List.find? (fun x => x.uid == t) (y :: ys)
          = List.find? (fun x => x.uid == t) ys from List.find?_cons_of_neg ys hyt]
      exact find?_uid_map_update ys u t b

lemma getUser_updateBalance (store : BankStore) (u t : String) (b : ℚ) :
    getUser (updateBalance store u b) t
      = (getUser store t).map (fun x => if x.uid == u then { x with balance := b } else x) :=
  find?_uid_map_update store.users u t b

lemma getUser_some_uid (store : BankStore) (t : String) (r : StoredUser)
    (h : getUser store t = some r) : r.uid = t := by
  have := List.find?_some h
  simpa using this

lemma find?_uid_of_mem :
    ∀ (l : List StoredUser) (r : StoredUser), r ∈ l → (l.map StoredUser.uid).Nodup →
      l.find? (fun x => x.uid == r.uid) = some r
  | [], r => by simp
  | y :: ys, r => by
    intro hmem hnodup
    rw [List.map_cons, List.nodup_cons] at hnodup
    rcases List.mem_cons.mp hmem with rfl | hmem
    · rw [List.find?_cons_of_pos _ (by simp)]
    · have hne : y.uid ≠ r.uid := by
        intro he
        exact hnodup.1 (he ▸ List.mem_map.mpr ⟨r, hmem, rfl⟩)
      rw [List.find?_cons_of_neg _ (by simp [hne])]
      exact find?_uid_of_mem ys r hmem hnodup.2

lemma head?_mem {α : Type} : ∀ (l : List α) (a : α), l.head? = some a → a ∈ l
  | [], a => by simp
  | x :: xs, a => by
    intro h
    simp only [List.head?_cons, Option.some.injEq] at h
    subst h
    exact List.mem_cons_self x xs

lemma resolveRecipient_mem (store : BankStore) (identifier : String) (r : StoredUser)
    (h : resolveRecipient store identifier = some r) : r ∈ store.users := by
  unfold resolveRecipient at h
  have hmem := head?_mem _ _ h
  simp only [List.mem_append, List.mem_filter] at hmem
  rcases hmem with ((((h1 | h2) | h3) | h4) | h5)
  · exact h1.1
  · exact h2.1
  · exact h3.1
  · exact h4.1
  · exact h5.1

/-- C2: for every successful `transferMoney` in a sequential run (no
interference: `interim = id`), with distinct user-document ids, the
sender's stored balance afterwards is its stored balance before minus the
amount, the recipient's stored balance afterwards is its stored balance
before plus the amount, and exactly two `Transaction` records are
appended — a debit for the sender and a credit for the recipient — with
the same amount and the same timestamp. -/
theorem claim_C2_transfer_balance_conservation
    (currentUser : User) (store : BankStore) (now : Int) (identifier : String) (amount : ℚ)
    (out : TransferSuccess)
    (hnodup : (store.users.map StoredUser.uid).Nodup)
    (hok : transferMoney currentUser store id now identifier amount = Except.ok out) :
    ∃ senderBefore recipBefore,
      getUser store currentUser.uid = some senderBefore ∧
      resolveRecipient store identifier = some recipBefore ∧
      getUser store recipBefore.uid = some recipBefore ∧
      getUser out.finalStore currentUser.uid
        = some { senderBefore with balance := senderBefore.balance - amount } ∧
      getUser out.finalStore recipBefore.uid
        = some { recipBefore with balance := recipBefore.balance + amount } ∧
      out.finalStore.transactions
        = store.transactions
          ++ [mkDebitTx currentUser.toStored recipBefore amount now,
              mkCreditTx currentUser.toStored recipBefore amount now] := by
  unfold transferMoney at hok
  split at hok
  · exact Except.noConfusion hok
  · split at hok
    · exact Except.noConfusion hok
    · split at hok
      · exact Except.noConfusion hok
      · next recip hresolve =>
        split at hok
        · exact Except.noConfusion hok
        · next hneb =>
          split at hok
          · exact Except.noConfusion hok
          · next store2 htxn =>
            injection hok with hout
            subst hout
            unfold transferTxn at htxn
            simp only [id_eq] at htxn
            split at htxn
            · exact Except.noConfusion htxn
            · next senderLive hsender =>
              split at htxn
              · exact Except.noConfusion htxn
              · next hlt =>
                injection htxn with hstore2
                subst hstore2
                have hsuid : senderLive.uid = currentUser.uid :=
                  getUser_some_uid store currentUser.uid senderLive hsender
                have hrmem := resolveRecipient_mem store identifier recip hresolve
                have hrget : getUser store recip.uid = some recip :=
                  find?_uid_of_mem store.users recip hrmem hnodup
                have hne : recip.uid ≠ currentUser.uid := by simpa using hneb
                have hsr : senderLive.uid ≠ recip.uid := by
                  rw [hsuid]; exact Ne.symm hne
                refine ⟨senderLive, recip, hsender, hresolve, hrget, ?_, ?_, rfl⟩
                · show getUser (updateBalance
                      (updateBalance store currentUser.uid (senderLive.balance - amount))
                      recip.uid (recip.balance + amount)) currentUser.uid = _
                  rw [getUser_updateBalance, getUser_updateBalance, hsender]
                  simp [hsuid, hsr]
                  exact fun hcc => absurd hcc.symm hne
                · show getUser (updateBalance
                      (updateBalance store currentUser.uid (senderLive.balance - amount))
                      recip.uid (recip.balance + amount)) recip.uid = _
                  rw [getUser_updateBalance, getUser_updateBalance, hrget]
                  simp [hne]

/-- Sender for the C2 witness scenario (balance 1000). -/
def c2Sender : User :=
  { uid := "s", name := "Sam", username := "sam", email := "sam@example.com"
    phone := "333", balance := 1000, savingsAccountNumber := "555", cards := [], loans := [] }

/-- Recipient for the C2 witness scenario (balance 50, account number
"111222"). -/
def c2Recipient : StoredUser :=
  { uid := "b", name := "Bob", username := "bob", email := "bob@example.com"
    phone := "222", balance := 50, savingsAccountNumber := "111222" }

/-- Store for the C2 witness scenario. -/
def c2Store : BankStore := { users := [c2Sender.toStored, c2Recipient], transactions := [] }

unseal Rat.add Rat.sub in
/-- C2 witness: the theorem applied to the concrete transfer of 200 from
`c2Sender` (balance 1000) to `c2Recipient` (balance 50) identified by
account number. -/
theorem claim_C2_witness :
    ∃ out, transferMoney c2Sender c2Store id 7 "111222" 200 = Except.ok out ∧
      ∃ senderBefore recipBefore,
        getUser c2Store c2Sender.uid = some senderBefore ∧
        resolveRecipient c2Store "111222" = some recipBefore ∧
        getUser c2Store recipBefore.uid = some recipBefore ∧
        getUser out.finalStore c2Sender.uid
          = some { senderBefore with balance := senderBefore.balance - 200 } ∧
        getUser out.finalStore recipBefore.uid
          = some { recipBefore with balance := recipBefore.balance + 200 } ∧
        out.finalStore.transactions
          = c2Store.transactions
            ++ [mkDebitTx c2Sender.toStored recipBefore 200 7,
                mkCreditTx c2Sender.toStored recipBefore 200 7] :=
  ⟨_, rfl, claim_C2_transfer_balance_conservation c2Sender c2Store 7 "111222" 200 _
    (by decide) rfl⟩

/-- C5: for every successful `makeAccountPayment` on a loan, the written
remaining balance never goes below 0, the `Paid Off` status write happens
exactly when the written remaining balance is 0 — inside the same
`db.runTransaction` effects record as the balance writes — and a custom
payment amount exceeding the loan's remaining balance is clamped down to
the remaining balance (the cash debit is the clamped amount and the loan
is driven to 0 and `Paid Off`). -/
theorem claim_C5_loan_payment_clamp_floor_paidoff
    (currentUser : User) (liveBalance : ℚ) (accountId : String) (paymentType : PaymentType)
    (customAmount : Option ℚ) (loan : Loan) (effects : PaymentEffects)
    (hfind : currentUser.loans.find? (fun l => l.id == accountId) = some loan)
    (hok : makeAccountPayment currentUser liveBalance accountId AccountType.loan paymentType
      customAmount = Except.ok effects) :
    ∃ u, effects.accountUpdate = AccountUpdate.loan u ∧
      0 ≤ u.newRemainingBalance ∧
      (u.paidOff = true ↔ u.newRemainingBalance = 0) ∧
      (∀ b, paymentType = PaymentType.custom → customAmount = some b →
        loan.remainingBalance < b →
          u.newRemainingBalance = 0 ∧ u.paidOff = true ∧
          effects.newUserBalance = liveBalance - loan.remainingBalance) := by
  simp only [makeAccountPayment] at hok
  split at hok
  · exact Except.noConfusion hok
  · next loan2 hfind2 =>
    rw [hfind] at hfind2
    injection hfind2 with hl
    subst hl
    split at hok
    · exact Except.noConfusion hok
    · next hpos =>
      split at hok
      · next hclamp =>
        split at hok
        · exact Except.noConfusion hok
        · next hfunds =>
          injection hok with heff
          subst heff
          refine ⟨_, rfl, by simp, by simp, ?_⟩
          intro b hpt hca hover
          exact ⟨by simp, by simp, rfl⟩
      · next hclamp =>
        split at hok
        · exact Except.noConfusion hok
        · next hfunds =>
          injection hok with heff
          subst heff
          have hle := le_of_not_lt hclamp
          refine ⟨_, rfl, by simp only [sub_nonneg]; exact hle, ?_, ?_⟩
          · simp only [decide_eq_true_eq]
            constructor
            · intro hp
              linarith
            · intro hz
              rw [hz]
          · intro b hpt hca hover
            subst hpt
            subst hca
            simp only [Option.getD_some] at hclamp
            exact absurd hover hclamp

/-- C6: for every successful card payment, the written `creditBalance`
and `statementBalance` are never below 0 (both are floored by
`Math.max(0, ·)`), and a "full" payment (amount = `creditBalance`) drives
both to exactly 0, given the data-model invariant
`statementBalance ≤ creditBalance`. -/
theorem claim_C6_card_full_payment_zeroes_both
    (currentUser : User) (liveBalance : ℚ) (accountId : String) (paymentType : PaymentType)
    (customAmount : Option ℚ) (card : Card) (effects : PaymentEffects)
    (hfind : currentUser.cards.find? (fun c => c.cardNumber.takeRight 4 == accountId)
      = some card)
    (hstmt : card.statementBalance ≤ card.creditBalance)
    (hok : makeAccountPayment currentUser liveBalance accountId AccountType.card paymentType
      customAmount = Except.ok effects) :
    ∃ u, effects.accountUpdate = AccountUpdate.card u ∧
      0 ≤ u.newCreditBalance ∧ 0 ≤ u.newStatementBalance ∧
      (paymentType = PaymentType.full →
        u.newCreditBalance = 0 ∧ u.newStatementBalance = 0) := by
  simp only [makeAccountPayment] at hok
  split at hok
  · exact Except.noConfusion hok
  · next card2 hfind2 =>
    rw [hfind] at hfind2
    injection hfind2 with hc
    subst hc
    split at hok
    · exact Except.noConfusion hok
    · next hpos =>
      split at hok
      · exact Except.noConfusion hok
      · next hfunds =>
        injection hok with heff
        subst heff
        refine ⟨_, rfl, le_max_left 0 _, le_max_left 0 _, ?_⟩
        intro hpt
        subst hpt
        constructor
        · simp
        · exact max_eq_left (by linarith)

/-- C10: for every successful custom card payment whose amount exceeds
the card's `creditBalance` (with the invariant
`statementBalance ≤ creditBalance`), the user's cash balance is debited
by the full custom amount while `creditBalance` and `statementBalance`
only drop to 0 — the cash debited strictly exceeds the debt reduction;
nothing clamps the amount and no excess is refunded. -/
theorem claim_C10_card_custom_overpayment_excess
    (currentUser : User) (liveBalance : ℚ) (accountId : String) (a : ℚ) (card : Card)
    (effects : PaymentEffects)
    (hfind : currentUser.cards.find? (fun c => c.cardNumber.takeRight 4 == accountId)
      = some card)
    (hstmt : card.statementBalance ≤ card.creditBalance)
    (hover : card.creditBalance < a)
    (hok : makeAccountPayment currentUser liveBalance accountId AccountType.card
      PaymentType.custom (some a) = Except.ok effects) :
    effects.newUserBalance = liveBalance - a ∧
    ∃ u, effects.accountUpdate = AccountUpdate.card u ∧
      u.newCreditBalance = 0 ∧ u.newStatementBalance = 0 ∧
      liveBalance - effects.newUserBalance = a ∧
      card.creditBalance - u.newCreditBalance < a := by
  simp only [makeAccountPayment, Option.getD_some] at hok
  split at hok
  · exact Except.noConfusion hok
  · next card2 hfind2 =>
    rw [hfind] at hfind2
    injection hfind2 with hc
    subst hc
    split at hok
    · exact Except.noConfusion hok
    · next hpos =>
      split at hok
      · exact Except.noConfusion hok
      · next hfunds =>
        injection hok with heff
        subst heff
        refine ⟨rfl, _, rfl, max_eq_left (by linarith), max_eq_left (by linarith), by ring, ?_⟩
        rw [max_eq_left (by linarith)]
        simpa using hover

/-- C7: for every successful `requestPaymentExtension` on a card or
loan, the written due date is exactly the account's prior `paymentDueDate`
plus 14 days, and the result is identical for every value of the wall
clock `now` — the shift is computed from the stored due date, never from
the request time. -/
theorem claim_C7_extension_shifts_14_days
    (currentUser : User) (now1 now2 : Int) (accountId : String) (ty : AccountType)
    (r : ExtensionResult)
    (hok : requestPaymentExtension currentUser now1 false accountId ty = Except.ok r) :
    requestPaymentExtension currentUser now2 false accountId ty = Except.ok r ∧
    ((∃ card, currentUser.cards.find? (fun c => c.cardNumber.takeRight 4 == accountId)
        = some card ∧ r.newDueDate = card.paymentDueDate + 14) ∨
     (∃ loan, currentUser.loans.find? (fun l => l.id == accountId) = some loan
        ∧ r.newDueDate = loan.paymentDueDate + 14)) := by
  refine ⟨hok, ?_⟩
  cases ty with
  | card =>
    simp only [requestPaymentExtension, Bool.false_eq_true, if_false] at hok
    split at hok
    · exact Except.noConfusion hok
    · next card hfindc =>
      injection hok with hr
      subst hr
      exact Or.inl ⟨card, hfindc, rfl⟩
  | loan =>
    simp only [requestPaymentExtension, Bool.false_eq_true, if_false] at hok
    split at hok
    · exact Except.noConfusion hok
    · next loan hfindl =>
      injection hok with hr
      subst hr
      exact Or.inr ⟨loan, hfindl, rfl⟩

lemma filter_filter_length_le (l : List Transaction) (p q : Transaction → Bool) :
    ((l.filter p).filter q).length ≤ (l.filter q).length :=
  ((l.filter_sublist (p := p)).filter q).length_le

/-- C9: `loadOrGenerateInsights` returns the persisted cache when one is
present (no AI call); otherwise, when the user's combined savings-plus-
card history holds fewer than 3 debit transactions, it returns nothing
(not an error), issues no batch AI call (the 60-day recent slice can only
have fewer debit entries than the full history), and leaves the cache
empty. -/
theorem claim_C9_insights_cache_or_minimum_history {ι : Type}
    (aiCall : List Transaction → Option ι) (currentUser : User)
    (transactions : List Transaction) (cache : Option (CachedInsight ι)) (now : Int) :
    (∀ cached, cache = some cached →
      loadOrGenerateInsights aiCall false currentUser transactions cache now
        = (some cached, cache, false)) ∧
    (cache = none →
      ((transactions.filter (fun tx => tx.uid == currentUser.uid)
          ++ currentUser.cards.flatMap (fun c => c.transactions)).filter
          (fun tx => tx.type == TxType.debit)).length < 3 →
      loadOrGenerateInsights aiCall false currentUser transactions cache now
        = (none, none, false)) := by
  constructor
  · intro cached hc
    subst hc
    rfl
  · intro hc hcount
    subst hc
    have hrec : (((transactions.filter (fun tx => tx.uid == currentUser.uid)
          ++ currentUser.cards.flatMap (fun c => c.transactions)).filter
          (fun tx => now - 60 ≤ tx.timestamp)).filter
          (fun tx => tx.type == TxType.debit)).length < 3 :=
      lt_of_le_of_lt (filter_filter_length_le _ _ _) hcount
    simp only [loadOrGenerateInsights, getComprehensiveInsights, Bool.false_eq_true, if_false,
      if_pos hrec]

/-- Loan for the C5 witness scenario (remaining balance 100). -/
def c5Loan : Loan :=
  { id := "loan-1", uid := "p", loanAmount := 1000, monthlyPayment := 50
    remainingBalance := 100, status := LoanStatus.active, paymentDueDate := 200 }

/-- User for the C5 witness scenario. -/
def c5User : User :=
  { uid := "p", name := "Pat", username := "pat", email := "pat@example.com"
    phone := "444", balance := 1000, savingsAccountNumber := "888"
    cards := [], loans := [c5Loan] }

unseal Rat.add Rat.sub in
/-- C5 witness: the theorem applied to a custom payment of 150 against a
loan with remaining balance 100 (live cash balance 1000). -/
theorem claim_C5_witness :
    ∃ effects, makeAccountPayment c5User 1000 "loan-1" AccountType.loan PaymentType.custom
        (some 150) = Except.ok effects ∧
      ∃ u, effects.accountUpdate = AccountUpdate.loan u ∧
        0 ≤ u.newRemainingBalance ∧
        (u.paidOff = true ↔ u.newRemainingBalance = 0) ∧
        (∀ b, PaymentType.custom = PaymentType.custom → (some (150 : ℚ)) = some b →
          c5Loan.remainingBalance < b →
            u.newRemainingBalance = 0 ∧ u.paidOff = true ∧
            effects.newUserBalance = 1000 - c5Loan.remainingBalance) :=
  ⟨_, rfl, claim_C5_loan_payment_clamp_floor_paidoff c5User 1000 "loan-1" PaymentType.custom
    (some 150) c5Loan _ (by decide) rfl⟩

/-- Card for the C6 witness scenario (credit balance 500, statement
balance 300). -/
def c6Card : Card :=
  { cardNumber := "4111222233334444", creditLimit := 5000, creditBalance := 500
    statementBalance := 300, minimumPayment := 25, paymentDueDate := 100, transactions := [] }

/-- User for the C6 witness scenario. -/
def c6User : User :=
  { uid := "q", name := "Quinn", username := "quinn", email := "quinn@example.com"
    phone := "555", balance := 1000, savingsAccountNumber := "777"
    cards := [c6Card], loans := [] }

unseal Rat.add Rat.sub in
/-- C6 witness: the theorem applied to a "full" payment on `c6Card`. -/
theorem claim_C6_witness :
    ∃ effects, makeAccountPayment c6User 1000 "4444" AccountType.card PaymentType.full none
        = Except.ok effects ∧
      ∃ u, effects.accountUpdate = AccountUpdate.card u ∧
        0 ≤ u.newCreditBalance ∧ 0 ≤ u.newStatementBalance ∧
        (PaymentType.full = PaymentType.full →
          u.newCreditBalance = 0 ∧ u.newStatementBalance = 0) :=
  ⟨_, rfl, claim_C6_card_full_payment_zeroes_both c6User 1000 "4444" PaymentType.full none
    c6Card _ (by decide) (by decide) rfl⟩

unseal Rat.add Rat.sub in
/-- C10 witness: the theorem applied to a custom payment of 800 on
`c6Card`-like data (credit balance 500), debiting 800 cash while the card
debt only drops by 500. -/
theorem claim_C10_witness :
    ∃ effects, makeAccountPayment c6User 1000 "4444" AccountType.card PaymentType.custom
        (some 800) = Except.ok effects ∧
      (effects.newUserBalance = 1000 - 800 ∧
       ∃ u, effects.accountUpdate = AccountUpdate.card u ∧
         u.newCreditBalance = 0 ∧ u.newStatementBalance = 0 ∧
         (1000 : ℚ) - effects.newUserBalance = 800 ∧
         c6Card.creditBalance - u.newCreditBalance < 800) :=
  ⟨_, rfl, claim_C10_card_custom_overpayment_excess c6User 1000 "4444" 800 c6Card _
    (by decide) (by decide) (by decide) rfl⟩

/-- C7 witness: the theorem applied to `c6User`, whose card has
`paymentDueDate = 100`, with two different clock values. -/
theorem claim_C7_witness :
    ∃ r, requestPaymentExtension c6User 0 false "4444" AccountType.card = Except.ok r ∧
      (requestPaymentExtension c6User 999 false "4444" AccountType.card = Except.ok r ∧
       ((∃ card, c6User.cards.find? (fun c => c.cardNumber.takeRight 4 == "4444")
           = some card ∧ r.newDueDate = card.paymentDueDate + 14) ∨
        (∃ loan, c6User.loans.find? (fun l => l.id == "4444") = some loan
           ∧ r.newDueDate = loan.paymentDueDate + 14))) :=
  ⟨_, rfl, claim_C7_extension_shifts_14_days c6User 0 999 "4444" AccountType.card _ rfl⟩

/-- Savings history of the C9 witness user: exactly two debit
transactions. -/
def c9Txs : List Transaction :=
  [{ uid := "w", type := TxType.debit, amount := 12, description := "Coffee"
     timestamp := 0, partyName := "Cafe", category := "Food" },
   { uid := "w", type := TxType.debit, amount := 30, description := "Books"
     timestamp := 0, partyName := "Shop", category := "Shopping" },
   { uid := "w", type := TxType.credit, amount := 900, description := "Salary"
     timestamp := 0, partyName := "Employer", category := "Income" }]

/-- User for the C9 witness scenario (no card transactions). -/
def c9User : User :=
  { uid := "w", name := "Wes", username := "wes", email := "wes@example.com"
    phone := "666", balance := 1000, savingsAccountNumber := "666"
    cards := [], loans := [] }

/-- AI-call oracle for the C9 witness. -/
def c9Ai : List Transaction → Option Nat := fun _ => some 7

/-- A cached insights document for the C9 witness. -/
def c9Cached : CachedInsight Nat := { data := 7, lastUpdated := 0 }

/-- C9 witness: with only 2 debit transactions and no cache,
`loadOrGenerateInsights` returns nothing, writes no cache, and makes no
AI call; with a cache present it returns the cache and makes no AI
call. -/
theorem claim_C9_witness :
    loadOrGenerateInsights c9Ai false c9User c9Txs none 0 = (none, none, false) ∧
    loadOrGenerateInsights c9Ai false c9User c9Txs (some c9Cached) 0
      = (some c9Cached, some c9Cached, false) :=
  ⟨(claim_C9_insights_cache_or_minimum_history c9Ai c9User c9Txs none 0).2 rfl (by decide),
   (claim_C9_insights_cache_or_minimum_history c9Ai c9User c9Txs (some c9Cached) 0).1
     c9Cached rfl⟩
